import Mathlib

/-!
Shallow embedding of the Auton on-chain programs (`auton_program`,
`sponsor_program`, `vault_governance`).

Modelling conventions:
* Addresses (`Pubkey`) are naturals; lamport balances are naturals.
* All `u64` arithmetic is checked: an overflow past `2^64 - 1` or an
  underflow below `0` aborts the whole transaction (the release profile
  enables overflow checks, and the Solana runtime's lamport arithmetic is
  checked; a panicking instruction discards every effect of the call).
  A handler therefore returns `Except ε σ`: `.ok` carries the post-state,
  `.error` means the transaction failed and the pre-state is kept.
* Anchor's account-constraint phase (`init` collision with an occupied
  derived slot, the `address =` constraint) runs before the handler body,
  so those failures are checked first, in declaration order.
* Rust `String::len` is the UTF-8 byte length; `char::is_alphanumeric`
  is the Unicode property (Alphabetic or general category N), tabulated
  here exactly on code points below 0x100 (Basic Latin and Latin-1
  Supplement), the only range this development evaluates it on.
-/

/-- Addresses are modelled as naturals. -/
abbrev Pubkey := Nat

/-- One past the largest `u64` value. -/
def U64_MOD : Nat := 2 ^ 64

/-- Checked `u64` addition: aborts (`none`) on overflow. -/
def chkAdd (a b : Nat) : Option Nat :=
  if a + b < U64_MOD then some (a + b) else none

/-- Checked `u64` subtraction: aborts (`none`) on underflow. -/
def chkSub (a b : Nat) : Option Nat :=
  if b ≤ a then some (a - b) else none

/-- Checked `u64` multiplication: aborts (`none`) on overflow. -/
def chkMul (a b : Nat) : Option Nat :=
  if a * b < U64_MOD then some (a * b) else none

/-- Pointwise balance map update. -/
def setBal (f : Pubkey → Nat) (k : Pubkey) (v : Nat) : Pubkey → Nat :=
  fun x => if x = k then v else f x

/-- The system-program transfer: moves `amt` lamports from `src` to `dst`,
failing the transaction when `src` holds fewer than `amt` lamports or the
credit would overflow `u64`. -/
def systemTransfer (bal : Pubkey → Nat) (src dst : Pubkey) (amt : Nat) :
    Option (Pubkey → Nat) :=
  if amt ≤ bal src then
    let bal1 := setBal bal src (bal src - amt)
    match chkAdd (bal1 dst) amt with
    | none => none
    | some v => some (setBal bal1 dst v)
  else none

/-! ## vault_governance -/

/-- `VaultState` account (vault_governance/src/lib.rs). -/
structure VaultState where
  vault_wallet : Pubkey
  admin : Pubkey
  fee_percentage : Nat
  sponsorship_amount : Nat
  total_collected : Nat
  total_sponsored : Nat
  is_initialized : Bool
deriving DecidableEq, Repr

/-- Failure modes of a vault_governance transaction: the program's
`VaultError` variants plus the arithmetic abort. -/
inductive VaultTxError where
  | unauthorized
  | invalidFee
  | amountTooLarge
  | insufficientBalance
  | overflow
deriving DecidableEq, Repr

/-- `collect_fees(amount)`: `fee_amount = (amount * fee_percentage) / 10000`,
then `payer -= fee_amount`, `vault_wallet += fee_amount`,
`total_collected += fee_amount`. Returns the new vault state, the payer's
and the vault wallet's lamports. -/
def collect_fees (vs : VaultState) (payerBal vaultBal amount : Nat) :
    Except VaultTxError (VaultState × Nat × Nat) :=
  match chkMul amount vs.fee_percentage with
  | none => .error .overflow
  | some prod =>
    let fee := prod / 10000
    match chkSub payerBal fee with
    | none => .error .overflow
    | some p2 =>
      match chkAdd vaultBal fee with
      | none => .error .overflow
      | some v2 =>
        match chkAdd vs.total_collected fee with
        | none => .error .overflow
        | some tc => .ok ({ vs with total_collected := tc }, p2, v2)

/-- `withdraw(amount, recipient)`: requires `vault_state.admin == signer`;
requires `vault_balance.saturating_sub(amount) >= 5_000_000_000` (Nat
subtraction is exactly `saturating_sub`); then `vault_wallet -= amount`,
`recipient += amount`. Returns the vault wallet's and the recipient's
lamports. -/
def withdraw (vs : VaultState) (signer : Pubkey) (vaultBal recipBal amount : Nat) :
    Except VaultTxError (Nat × Nat) :=
  if vs.admin = signer then
    if vaultBal - amount ≥ 5000000000 then
      match chkAdd recipBal amount with
      | none => .error .overflow
      | some r2 => .ok (vaultBal - amount, r2)
    else .error .insufficientBalance
  else .error .unauthorized

/-! ## sponsor_program -/

/-- `SponsoredUserAccount` (sponsor_program/src/lib.rs). -/
structure SponsoredUserAccount where
  user : Pubkey
  is_sponsored : Bool
  sponsored_at : Int
  amount : Nat
deriving DecidableEq, Repr

/-- Failure modes of a sponsor_program transaction: the program's
`SponsorError` variants, the Anchor account failures and the arithmetic
abort. -/
inductive SponsorTxError where
  | alreadySponsored
  | amountTooLarge
  | accountInUse
  | accountNotFound
  | overflow
deriving DecidableEq, Repr

/-- `sponsor_user(amount)` on an existing sponsored-user account: the
`constraint = !sponsored_user.is_sponsored` and the handler's own
`require!(!sponsored_user.is_sponsored)` both reject an already sponsored
user; `require!(amount <= 10_000_000)`; then `vault -= amount`,
`user += amount`, and the account is marked sponsored with the current
chain timestamp `now` and `amount`. -/
def sponsor_user (su : SponsoredUserAccount) (vaultBal userBal : Nat)
    (now : Int) (amount : Nat) :
    Except SponsorTxError (SponsoredUserAccount × Nat × Nat) :=
  if su.is_sponsored then .error .alreadySponsored
  else if amount ≤ 10000000 then
    match chkSub vaultBal amount with
    | none => .error .overflow
    | some v2 =>
      match chkAdd userBal amount with
      | none => .error .overflow
      | some u2 =>
        .ok ({ su with is_sponsored := true, sponsored_at := now, amount := amount }, v2, u2)
  else .error .amountTooLarge

/-- `initialize_sponsored_user()`: `init` creates the account at the
derived key `("sponsored", user)`; creation fails if the slot is already
occupied; fields start as `is_sponsored = false`, `sponsored_at = 0`,
`amount = 0`. -/
def initialize_sponsored_user (existing : Option SponsoredUserAccount)
    (user : Pubkey) : Except SponsorTxError SponsoredUserAccount :=
  match existing with
  | some _ => .error .accountInUse
  | none => .ok { user := user, is_sponsored := false, sponsored_at := 0, amount := 0 }

/-- The state a sponsor_program transaction can touch: the (possibly not
yet created) sponsored-user account, the vault's lamports and the user's
lamports. -/
structure SponsorWorld where
  account : Option SponsoredUserAccount
  vault_lamports : Nat
  user_lamports : Nat
deriving DecidableEq, Repr

/-- The operations of the sponsor module. -/
inductive SponsorOp where
  | initUser (user : Pubkey)
  | sponsor (now : Int) (amount : Nat)
deriving DecidableEq, Repr

/-- One sponsor_program transaction against a `SponsorWorld`. -/
def sponsorStep (op : SponsorOp) (w : SponsorWorld) :
    Except SponsorTxError SponsorWorld :=
  match op with
  | .initUser u =>
    match initialize_sponsored_user w.account u with
    | .error e => .error e
    | .ok su => .ok { w with account := some su }
  | .sponsor now amt =>
    match w.account with
    | none => .error .accountNotFound
    | some su =>
      match sponsor_user su w.vault_lamports w.user_lamports now amt with
      | .error e => .error e
      | .ok (su2, v2, u2) =>
        .ok { account := some su2, vault_lamports := v2, user_lamports := u2 }

/-- Chain semantics for a sequence of sponsor transactions: a failing
transaction is rolled back (the state is kept), the chain continues. -/
def sponsorRun (ops : List SponsorOp) (w : SponsorWorld) : SponsorWorld :=
  ops.foldl (fun w op => match sponsorStep op w with
    | .ok w2 => w2
    | .error _ => w) w

/-- Whether the world's sponsored-user record exists and is marked
sponsored. -/
def isSponsoredW (w : SponsorWorld) : Bool :=
  match w.account with
  | some su => su.is_sponsored
  | none => false

/-! ## auton_program -/

/-- UTF-8 byte length of one scalar value. -/
def utf8CharLen (c : Char) : Nat :=
  if c.toNat < 0x80 then 1
  else if c.toNat < 0x800 then 2
  else if c.toNat < 0x10000 then 3
  else 4

/-- Rust `String::len`: the UTF-8 byte length of the string. -/
def rustStrLen (s : List Char) : Nat := (s.map utf8CharLen).sum

/-- Rust `char::is_alphanumeric` (Unicode Alphabetic, or general category
Nd/Nl/No), tabulated exactly on code points below 0x100: besides ASCII
letters and digits this includes ª µ º ² ³ ¹ ¼ ½ ¾ and the Latin-1
letters À–Ö, Ø–ö, ø–ÿ. Code points at or above 0x100 are outside the
range this development evaluates the predicate on. -/
def rustIsAlphanumeric (c : Char) : Bool :=
  decide ((0x41 ≤ c.toNat ∧ c.toNat ≤ 0x5A) ∨
    (0x61 ≤ c.toNat ∧ c.toNat ≤ 0x7A) ∨
    (0x30 ≤ c.toNat ∧ c.toNat ≤ 0x39) ∨
    c.toNat = 0xAA ∨ c.toNat = 0xB5 ∨ c.toNat = 0xBA ∨
    (0xC0 ≤ c.toNat ∧ c.toNat ≤ 0xD6) ∨
    (0xD8 ≤ c.toNat ∧ c.toNat ≤ 0xF6) ∨
    (0xF8 ≤ c.toNat ∧ c.toNat ≤ 0xFF) ∨
    c.toNat = 0xB2 ∨ c.toNat = 0xB3 ∨ c.toNat = 0xB9 ∨
    (0xBC ≤ c.toNat ∧ c.toNat ≤ 0xBE))

/-- `UsernameAccount` (auton_program/src/lib.rs). -/
structure UsernameAccount where
  authority : Pubkey
  username : List Char
deriving DecidableEq, Repr

/-- `ContentItem` (auton_program/src/lib.rs). -/
structure ContentItem where
  id : Nat
  title : List Char
  price : Nat
  encrypted_cid : List Nat
deriving DecidableEq, Repr

/-- `CreatorAccount` (auton_program/src/lib.rs). -/
structure CreatorAccount where
  creator_wallet : Pubkey
  last_content_id : Nat
  content : List ContentItem
deriving DecidableEq, Repr

/-- `PaidAccessAccount` (auton_program/src/lib.rs). -/
structure PaidAccessAccount where
  buyer : Pubkey
  content_id : Nat
deriving DecidableEq, Repr

/-- Failure modes of an auton_program transaction: the program's
`CustomError` variants, the Anchor account failures and the aborting
transfer. -/
inductive AutonTxError where
  | unauthorized
  | contentNotFound
  | invalidUsername
  | accountInUse
  | addressConstraint
  | transferFailed
  | overflow
deriving DecidableEq, Repr

/-- `register_username(username)`: the `init` of the PDA derived from
`("username", username)` fails first if the slot is occupied; then
`require!(3 <= username.len() <= 32)` (byte length) and
`require!(all chars alphanumeric or underscore)`, both failing
`InvalidUsername`; on success the account stores the claimant and the
username. -/
def register_username (existing : Option UsernameAccount) (creator : Pubkey)
    (username : List Char) : Except AutonTxError UsernameAccount :=
  match existing with
  | some _ => .error .accountInUse
  | none =>
    if 3 ≤ rustStrLen username ∧ rustStrLen username ≤ 32 then
      if username.all (fun c => rustIsAlphanumeric c || decide (c = '_')) then
        .ok { authority := creator, username := username }
      else .error .invalidUsername
    else .error .invalidUsername

/-- `initialize_creator()`: the `init` of the PDA derived from
`("creator", creator)` fails if occupied; fields start as
`creator_wallet = creator`, `content = []`, `last_content_id = 0`. -/
def initialize_creator (existing : Option CreatorAccount) (creator : Pubkey) :
    Except AutonTxError CreatorAccount :=
  match existing with
  | some _ => .error .accountInUse
  | none => .ok { creator_wallet := creator, last_content_id := 0, content := [] }

/-- `add_content(title, price, encrypted_cid)`:
`require!(creator_account.creator_wallet == signer)` else `Unauthorized`;
`last_content_id += 1` (checked `u64`); pushes the new `ContentItem` with
the incremented id. -/
def add_content (ca : CreatorAccount) (signer : Pubkey) (title : List Char)
    (price : Nat) (cid : List Nat) : Except AutonTxError CreatorAccount :=
  if ca.creator_wallet = signer then
    match chkAdd ca.last_content_id 1 with
    | none => .error .overflow
    | some newId =>
      .ok { ca with
        last_content_id := newId,
        content := ca.content ++ [{ id := newId, title := title, price := price, encrypted_cid := cid }] }
  else .error .unauthorized

/-- Folds a list of `add_content` requests (title, price, encrypted_cid),
failing as soon as one call fails. -/
def addAll (signer : Pubkey) (ca : CreatorAccount)
    (reqs : List (List Char × Nat × List Nat)) : Except AutonTxError CreatorAccount :=
  match reqs with
  | [] => .ok ca
  | (t, p, c) :: rest =>
    match add_content ca signer t p c with
    | .error e => .error e
    | .ok ca2 => addAll signer ca2 rest

/-- Whether the key-derived store already holds a receipt at
`("access", buyer, content_id)`. -/
def receiptExists (rs : List PaidAccessAccount) (buyer : Pubkey) (cid : Nat) : Bool :=
  rs.any (fun r => decide (r.buyer = buyer ∧ r.content_id = cid))

/-- The state a `process_payment` transaction can touch: the creator's
account, every party's lamports, and the store of access receipts. -/
structure AutonWorld where
  creator_account : CreatorAccount
  balances : Pubkey → Nat
  receipts : List PaidAccessAccount

/-- `process_payment(content_id)`. Anchor's account phase runs first, in
declaration order: the `init` of the receipt PDA at
`("access", buyer, content_id)` fails if the slot is occupied, and the
`address = creator_account.creator_wallet` constraint rejects a
caller-supplied `creator_wallet` account that differs from the stored
wallet. The handler then scans `creator_account.content` for the id
(`ContentNotFound` if absent), transfers `price` lamports from the buyer
to the verified creator wallet via the system program, and writes the
receipt fields. -/
def process_payment (w : AutonWorld) (buyer cwKey : Pubkey) (content_id : Nat) :
    Except AutonTxError AutonWorld :=
  if receiptExists w.receipts buyer content_id then .error .accountInUse
  else if cwKey = w.creator_account.creator_wallet then
    match w.creator_account.content.find? (fun item => decide (item.id = content_id)) with
    | none => .error .contentNotFound
    | some item =>
      match systemTransfer w.balances buyer cwKey item.price with
      | none => .error .transferFailed
      | some bal2 =>
        .ok { w with
          balances := bal2,
          receipts := { buyer := buyer, content_id := content_id } :: w.receipts }
  else .error .addressConstraint

/-- Chain semantics of one `process_payment` transaction: a failing
transaction is rolled back, leaving the world unchanged. -/
def paymentOutcome (w : AutonWorld) (buyer cwKey : Pubkey) (content_id : Nat) :
    AutonWorld :=
  match process_payment w buyer cwKey content_id with
  | .ok w2 => w2
  | .error _ => w

/-- The character set `[A-Za-z0-9_]` named by the specification's
username charset claim (stated from the spec's words, to compare with
the code's `rustIsAlphanumeric`). -/
def specAsciiAlnum (c : Char) : Bool :=
  decide ((0x41 ≤ c.toNat ∧ c.toNat ≤ 0x5A) ∨
    (0x61 ≤ c.toNat ∧ c.toNat ≤ 0x7A) ∨
    (0x30 ≤ c.toNat ∧ c.toNat ≤ 0x39) ∨
    c = '_')

/-! ## Helper lemmas -/

lemma chkAdd_ok {a b c : Nat} (h : chkAdd a b = some c) : c = a + b := by
  unfold chkAdd at h
  split at h <;> simp_all

lemma chkSub_ok {a b c : Nat} (h : chkSub a b = some c) : c = a - b ∧ b ≤ a := by
  unfold chkSub at h
  split at h <;> simp_all

lemma chkMul_ok {a b c : Nat} (h : chkMul a b = some c) : c = a * b := by
  unfold chkMul at h
  split at h <;> simp_all

/-- A sample vault state used to instantiate the vault theorems. -/
def vsEx : VaultState :=
  { vault_wallet := 2, admin := 7, fee_percentage := 250,
    sponsorship_amount := 10000000, total_collected := 0,
    total_sponsored := 0, is_initialized := true }

/-! ## Claim theorems -/

/-- C1: with `fee_percentage = feeBps ≤ 10000`, a successful
`collect_fees(amount)` charges exactly `floor(amount * feeBps / 10000)`
(the division never rounds up), moves exactly that fee from the payer's
balance to the vault wallet's balance, and increases `total_collected` by
exactly that fee. -/
theorem collect_fees_floor_fee (vs : VaultState) (payerBal vaultBal amount : Nat)
    (_hbps : vs.fee_percentage ≤ 10000)
    (vs' : VaultState) (p' v' : Nat)
    (h : collect_fees vs payerBal vaultBal amount = .ok (vs', p', v')) :
    p' = payerBal - amount * vs.fee_percentage / 10000 ∧
    v' = vaultBal + amount * vs.fee_percentage / 10000 ∧
    vs'.total_collected = vs.total_collected + amount * vs.fee_percentage / 10000 ∧
    amount * vs.fee_percentage / 10000 ≤ payerBal ∧
    10000 * (amount * vs.fee_percentage / 10000) ≤ amount * vs.fee_percentage := by
  unfold collect_fees at h
  rcases hm : chkMul amount vs.fee_percentage with _ | prod
  · rw [hm] at h
    exact absurd h (by simp)
  · rw [hm] at h
    dsimp only at h
    rcases hs : chkSub payerBal (prod / 10000) with _ | p2
    · rw [hs] at h
      exact absurd h (by simp)
    · rw [hs] at h
      dsimp only at h
      rcases ha : chkAdd vaultBal (prod / 10000) with _ | v2
      · rw [ha] at h
        exact absurd h (by simp)
      · rw [ha] at h
        dsimp only at h
        rcases ht : chkAdd vs.total_collected (prod / 10000) with _ | tc
        · rw [ht] at h
          exact absurd h (by simp)
        · rw [ht] at h
          simp only [Except.ok.injEq, Prod.mk.injEq] at h
          obtain ⟨h1, h2, h3⟩ := h
          obtain ⟨hs1, hs2⟩ := chkSub_ok hs
          have hm1 := chkMul_ok hm
          have ha1 := chkAdd_ok ha
          have ht1 := chkAdd_ok ht
          subst hm1
          refine ⟨by omega, by omega, ?_, by omega, ?_⟩
          · rw [← h1]
            simp only []
            omega
          · calc 10000 * (amount * vs.fee_percentage / 10000)
                = amount * vs.fee_percentage / 10000 * 10000 := by ring
              _ ≤ amount * vs.fee_percentage := Nat.div_mul_le_self _ _

/-- Witness for C1 at the spec's own example: `feeBps = 250`,
`collect_fees(1_000_000)` moves exactly `25_000` and `total_collected`
rises by exactly `25_000`. -/
theorem collect_fees_floor_fee_witness :
    (1975000 : Nat) = 2000000 - 1000000 * vsEx.fee_percentage / 10000 ∧
    ({ vsEx with total_collected := 25000 } : VaultState).total_collected
      = vsEx.total_collected + 1000000 * vsEx.fee_percentage / 10000 := by
  have h : collect_fees vsEx 2000000 0 1000000
      = .ok ({ vsEx with total_collected := 25000 }, 1975000, 25000) := rfl
  have hs := collect_fees_floor_fee vsEx 2000000 0 1000000 (by decide) _ _ _ h
  exact ⟨hs.1, hs.2.2.1⟩

/-- C3: `withdraw(amount, recipient)` signed by the current admin succeeds
exactly when the vault balance after the withdrawal stays at or above the
`5 * 10^9` reserve floor (staying exactly at the floor is allowed), moving
`amount` from the vault wallet to the recipient; one unit below the floor
fails `InsufficientBalance` (and the transaction has no effects); a signer
other than the admin fails `Unauthorized`. -/
theorem withdraw_reserve_floor (vs : VaultState) (signer : Pubkey)
    (vaultBal recipBal amount : Nat) :
    (vs.admin ≠ signer →
      withdraw vs signer vaultBal recipBal amount = .error .unauthorized) ∧
    (vs.admin = signer → vaultBal - amount < 5000000000 →
      withdraw vs signer vaultBal recipBal amount = .error .insufficientBalance) ∧
    (vs.admin = signer → 5000000000 ≤ vaultBal - amount → recipBal + amount < U64_MOD →
      withdraw vs signer vaultBal recipBal amount = .ok (vaultBal - amount, recipBal + amount)) := by
  refine ⟨?_, ?_, ?_⟩
  · intro hne
    unfold withdraw
    simp [hne]
  · intro hadm hlow
    unfold withdraw
    simp [hadm]
    omega
  · intro hadm hfloor hov
    unfold withdraw
    simp [hadm, hfloor, chkAdd, hov]

/-- Witness for C3: the admin withdraws down to exactly the reserve floor. -/
theorem withdraw_reserve_floor_witness :
    withdraw vsEx 7 6000000000 100 1000000000 = .ok (5000000000, 1000000100) := by
  exact (withdraw_reserve_floor vsEx 7 6000000000 100 1000000000).2.2
    rfl (by decide) (by decide)

/-- A sample not-yet-sponsored user account used to instantiate the
sponsor theorems. -/
def suEx : SponsoredUserAccount :=
  { user := 9, is_sponsored := false, sponsored_at := 0, amount := 0 }

/-- C7: `sponsor_user(amount)` on a not-yet-sponsored user succeeds for
`amount ≤ 10_000_000` (in particular `10_000_000` itself) when the vault
can cover it, moving `amount` from the vault balance to the user balance
and setting `is_sponsored = true` with the timestamp and amount recorded;
for `amount > 10_000_000` (in particular `10_000_001`) it fails
`AmountTooLarge`; on an already-sponsored user it fails `AlreadySponsored`
whatever the amount. -/
theorem sponsor_user_gate (su : SponsoredUserAccount) (vaultBal userBal : Nat)
    (now : Int) (amount : Nat) :
    (su.is_sponsored = false → amount ≤ 10000000 → amount ≤ vaultBal →
      userBal + amount < U64_MOD →
      sponsor_user su vaultBal userBal now amount =
        .ok ({ su with is_sponsored := true, sponsored_at := now, amount := amount },
          vaultBal - amount, userBal + amount)) ∧
    (su.is_sponsored = false → 10000000 < amount →
      sponsor_user su vaultBal userBal now amount = .error .amountTooLarge) ∧
    (su.is_sponsored = true →
      sponsor_user su vaultBal userBal now amount = .error .alreadySponsored) := by
  refine ⟨?_, ?_, ?_⟩
  · intro hns hcap hvault hov
    unfold sponsor_user
    simp [hns, hcap, chkSub, hvault, chkAdd, hov]
  · intro hns hbig
    unfold sponsor_user
    simp [hns]
    omega
  · intro hsp
    unfold sponsor_user
    simp [hsp]

/-- Witness for C7: sponsoring with the maximal allowed amount
`10_000_000` succeeds on a fresh user. -/
theorem sponsor_user_gate_witness :
    sponsor_user suEx 20000000 5 100 10000000 =
      .ok ({ suEx with is_sponsored := true, sponsored_at := 100, amount := 10000000 },
        10000000, 10000005) := by
  exact (sponsor_user_gate suEx 20000000 5 100 10000000).1
    rfl (by decide) (by decide) (by decide)

/-- From a sponsored world, every sponsor-module transaction fails:
re-initialization collides with the existing account, and `sponsor_user`
is rejected by the `AlreadySponsored` guard. -/
lemma sponsorStep_of_sponsored (op : SponsorOp) (w : SponsorWorld)
    (h : isSponsoredW w = true) : ∃ e, sponsorStep op w = .error e := by
  unfold isSponsoredW at h
  rcases hw : w.account with _ | su
  · rw [hw] at h
    simp at h
  · rw [hw] at h
    simp at h
    cases op with
    | initUser u =>
      refine ⟨.accountInUse, ?_⟩
      unfold sponsorStep initialize_sponsored_user
      rw [hw]
    | sponsor now amt =>
      refine ⟨.alreadySponsored, ?_⟩
      unfold sponsorStep sponsor_user
      rw [hw]
      simp [h]

/-- C9: once `is_sponsored` is true, no sequence of sponsor-module
operations ever resets it: after any run it is still true (indeed every
such transaction fails, so the false→true transition happens at most
once). -/
theorem is_sponsored_never_reset (ops : List SponsorOp) (w : SponsorWorld)
    (h : isSponsoredW w = true) : isSponsoredW (sponsorRun ops w) = true := by
  induction ops generalizing w with
  | nil => exact h
  | cons op rest ih =>
    obtain ⟨e, he⟩ := sponsorStep_of_sponsored op w h
    unfold sponsorRun
    simp only [List.foldl_cons, he]
    exact ih w h

/-- Witness for C9: a sponsored world stays sponsored across a run that
tries to re-initialize and re-sponsor the user. -/
theorem is_sponsored_never_reset_witness :
    isSponsoredW (sponsorRun [.initUser 9, .sponsor 7 5]
      { account := some { suEx with is_sponsored := true },
        vault_lamports := 50, user_lamports := 60 }) = true := by
  exact is_sponsored_never_reset [.initUser 9, .sponsor 7 5]
    { account := some { suEx with is_sponsored := true },
      vault_lamports := 50, user_lamports := 60 } (by decide)

/-- Every character of the claim's `[A-Za-z0-9_]` set is accepted by the
code's `is_alphanumeric-or-underscore` test. -/
lemma specAsciiAlnum_accepted (c : Char) (h : specAsciiAlnum c = true) :
    (rustIsAlphanumeric c || decide (c = '_')) = true := by
  unfold specAsciiAlnum at h
  unfold rustIsAlphanumeric
  simp only [decide_eq_true_eq] at h
  simp only [Bool.or_eq_true, decide_eq_true_eq]
  tauto

/-- Counterexample for C2 as stated: the username `"abé"` has byte length
4 ∈ [3, 32] and contains `'é'`, a character outside `[A-Za-z0-9_]`, yet
`register_username` accepts it — Rust's `char::is_alphanumeric` is the
Unicode property, so `'é'` passes the charset check. -/
theorem register_username_ascii_charset_counterexample :
    specAsciiAlnum 'é' = false ∧
    rustStrLen ['a', 'b', 'é'] = 4 ∧
    register_username none 1 ['a', 'b', 'é'] =
      .ok { authority := 1, username := ['a', 'b', 'é'] } := by
  refine ⟨by decide, by decide, rfl⟩

/-- C2 (amended): over code points below 0x100, `register_username` fails
`InvalidUsername` whenever the UTF-8 byte length is < 3 or > 32 or some
character is neither Unicode-alphanumeric nor `'_'`; and a fresh username
of byte length exactly 3 or exactly 32 whose characters all lie in
`[A-Za-z0-9_]` is accepted. -/
theorem register_username_validation (creator : Pubkey) (u : List Char)
    (_hlat : ∀ c ∈ u, c.toNat < 0x100) :
    ((rustStrLen u < 3 ∨ 32 < rustStrLen u ∨
        (∃ c ∈ u, rustIsAlphanumeric c = false ∧ c ≠ '_')) →
      register_username none creator u = .error .invalidUsername) ∧
    ((rustStrLen u = 3 ∨ rustStrLen u = 32) →
      (∀ c ∈ u, specAsciiAlnum c = true) →
      register_username none creator u = .ok { authority := creator, username := u }) := by
  constructor
  · intro hbad
    unfold register_username
    by_cases hlen : 3 ≤ rustStrLen u ∧ rustStrLen u ≤ 32
    · rw [if_pos hlen]
      obtain ⟨c, hc, hcn, hcne⟩ : ∃ c ∈ u, rustIsAlphanumeric c = false ∧ c ≠ '_' := by
        rcases hbad with h1 | h2 | h3
        · omega
        · omega
        · exact h3
      have hall : u.all (fun c => rustIsAlphanumeric c || decide (c = '_')) = false := by
        simp only [List.all_eq_false]
        exact ⟨c, hc, by simp [hcn, hcne]⟩
      rw [if_neg (by simp [hall])]
    · rw [if_neg hlen]
  · intro hlen hvalid
    unfold register_username
    rw [if_pos (by rcases hlen with h | h <;> omega)]
    rw [if_pos ?_]
    simp only [List.all_eq_true]
    intro c hc
    exact specAsciiAlnum_accepted c (hvalid c hc)

/-- Witness for C2 (amended): a 3-character ASCII username is accepted. -/
theorem register_username_validation_witness :
    register_username none 5 ['a', 'b', 'c'] =
      .ok { authority := 5, username := ['a', 'b', 'c'] } := by
  exact (register_username_validation 5 ['a', 'b', 'c'] (by decide)).2
    (Or.inl (by decide)) (by decide)

/-- Characterization of a successful `add_content` call. -/
lemma add_content_ok {ca ca2 : CreatorAccount} {signer : Pubkey}
    {t : List Char} {p : Nat} {c : List Nat}
    (h : add_content ca signer t p c = .ok ca2) :
    ca.creator_wallet = signer ∧
    ca2 = { ca with
      last_content_id := ca.last_content_id + 1,
      content := ca.content ++
        [{ id := ca.last_content_id + 1, title := t, price := p, encrypted_cid := c }] } := by
  by_cases hw : ca.creator_wallet = signer
  · unfold add_content at h
    rw [if_pos hw] at h
    rcases hadd : chkAdd ca.last_content_id 1 with _ | nid
    · rw [hadd] at h
      exact absurd h (by simp)
    · rw [hadd] at h
      have hn := chkAdd_ok hadd
      subst hn
      simp only [Except.ok.injEq] at h
      exact ⟨hw, h.symm⟩
  · unfold add_content at h
    rw [if_neg hw] at h
    exact absurd h (by simp)

/-- A successful run of `add_content` calls appends items whose ids
continue the counter from `last_content_id + 1` upward and whose payloads
are the requests in order. -/
lemma addAll_ids (signer : Pubkey) :
    ∀ (reqs : List (List Char × Nat × List Nat)) (ca ca' : CreatorAccount),
      addAll signer ca reqs = .ok ca' →
      ca'.creator_wallet = ca.creator_wallet ∧
      ca'.last_content_id = ca.last_content_id + reqs.length ∧
      ca'.content.map ContentItem.id
        = ca.content.map ContentItem.id ++ List.range' (ca.last_content_id + 1) reqs.length ∧
      ca'.content.map (fun it => (it.title, it.price, it.encrypted_cid))
        = ca.content.map (fun it => (it.title, it.price, it.encrypted_cid)) ++ reqs := by
  intro reqs
  induction reqs with
  | nil =>
    intro ca ca' h
    unfold addAll at h
    simp only [Except.ok.injEq] at h
    subst h
    simp
  | cons r rest ih =>
    intro ca ca' h
    obtain ⟨t, p, c⟩ := r
    unfold addAll at h
    rcases hac : add_content ca signer t p c with e | ca2
    · rw [hac] at h
      exact absurd h (by simp)
    · rw [hac] at h
      obtain ⟨hw, hca2⟩ := add_content_ok hac
      obtain ⟨ihw, ihlast, ihids, ihproj⟩ := ih ca2 ca' h
      subst hca2
      simp only [List.length_cons] at *
      refine ⟨by simpa using ihw, by omega, ?_, ?_⟩
      · rw [ihids]
        simp [List.range'_succ]
      · rw [ihproj]
        simp

/-- C8: starting from a freshly initialized creator account (counter 0,
empty content), any successful sequence of `add_content` calls yields
content whose ids are exactly 1, 2, 3, … in storage order, whose payloads
are the requests in insertion order, and `last_content_id` equals the
number of items (the id of the most recently appended item). -/
theorem add_content_sequential_ids (creator : Pubkey)
    (reqs : List (List Char × Nat × List Nat)) (ca0 ca' : CreatorAccount)
    (h0 : initialize_creator none creator = .ok ca0)
    (h : addAll creator ca0 reqs = .ok ca') :
    ca'.content.map ContentItem.id = List.range' 1 reqs.length ∧
    ca'.last_content_id = reqs.length ∧
    ca'.content.map (fun it => (it.title, it.price, it.encrypted_cid)) = reqs := by
  have hca0 : ca0 = { creator_wallet := creator, last_content_id := 0, content := [] } := by
    unfold initialize_creator at h0
    simp only [Except.ok.injEq] at h0
    exact h0.symm
  subst hca0
  obtain ⟨_, hlast, hids, hproj⟩ := addAll_ids creator reqs _ ca' h
  refine ⟨by simpa using hids, by simpa using hlast, by simpa using hproj⟩

/-- Witness for C8: two `add_content` calls produce ids `[1, 2]` and
`last_content_id = 2`. -/
theorem add_content_sequential_ids_witness :
    ({ creator_wallet := 3, last_content_id := 2,
       content := [{ id := 1, title := ['x'], price := 5, encrypted_cid := [1] },
                   { id := 2, title := ['y'], price := 7, encrypted_cid := [2] }] } :
      CreatorAccount).content.map ContentItem.id = List.range' 1 2 := by
  exact (add_content_sequential_ids 3 [(['x'], 5, [1]), (['y'], 7, [2])] _ _ rfl rfl).1

/-- Characterization of a successful system-program transfer. -/
lemma systemTransfer_ok {bal : Pubkey → Nat} {src dst : Pubkey} {amt : Nat}
    {bal2 : Pubkey → Nat} (h : systemTransfer bal src dst amt = some bal2) :
    amt ≤ bal src ∧
    (src ≠ dst → bal2 src = bal src - amt ∧ bal2 dst = bal dst + amt) ∧
    (∀ k, k ≠ src → k ≠ dst → bal2 k = bal k) := by
  by_cases hle : amt ≤ bal src
  · unfold systemTransfer at h
    rw [if_pos hle] at h
    dsimp only at h
    rcases ha : chkAdd (setBal bal src (bal src - amt) dst) amt with _ | v
    · rw [ha] at h
      exact absurd h (by simp)
    · rw [ha] at h
      simp only [Option.some.injEq] at h
      subst h
      have hv := chkAdd_ok ha
      subst hv
      refine ⟨hle, ?_, ?_⟩
      · intro hne
        constructor
        · unfold setBal
          simp [hne, Ne.symm hne]
        · unfold setBal
          simp [Ne.symm hne]
      · intro k hks hkd
        unfold setBal
        simp [hks, hkd]
  · unfold systemTransfer at h
    rw [if_neg hle] at h
    exact absurd h (by simp)

/-- Characterization of a successful `process_payment` transaction. -/
lemma process_payment_ok_spec (w : AutonWorld) (buyer cwKey : Pubkey) (cid : Nat)
    (w' : AutonWorld) (h : process_payment w buyer cwKey cid = .ok w') :
    receiptExists w.receipts buyer cid = false ∧
    cwKey = w.creator_account.creator_wallet ∧
    w'.creator_account = w.creator_account ∧
    w'.receipts = { buyer := buyer, content_id := cid } :: w.receipts ∧
    ∃ item, w.creator_account.content.find? (fun it => decide (it.id = cid)) = some item ∧
      item.price ≤ w.balances buyer ∧
      systemTransfer w.balances buyer cwKey item.price = some w'.balances := by
  unfold process_payment at h
  by_cases hr : receiptExists w.receipts buyer cid
  · rw [if_pos (by simp [hr])] at h
    exact absurd h (by simp)
  · rw [if_neg (by simp [hr])] at h
    by_cases hk : cwKey = w.creator_account.creator_wallet
    · rw [if_pos hk] at h
      rcases hf : w.creator_account.content.find? (fun it => decide (it.id = cid)) with _ | item
      · rw [hf] at h
        exact absurd h (by simp)
      · rw [hf] at h
        dsimp only at h
        rcases hst : systemTransfer w.balances buyer cwKey item.price with _ | bal2
        · rw [hst] at h
          exact absurd h (by simp)
        · rw [hst] at h
          simp only [Except.ok.injEq] at h
          subst h
          refine ⟨by simpa using hr, hk, rfl, rfl, item, hf, (systemTransfer_ok hst).1, hst⟩
    · rw [if_neg hk] at h
      exact absurd h (by simp)

/-- C4: a successful `process_payment(contentId)` for the catalog item
with that id transfers exactly its price from the buyer to the wallet
address stored in the `CreatorAccount` — the `address` constraint forces
the caller-supplied wallet account to be that stored address — and a
receipt for (buyer, contentId) is created. -/
theorem process_payment_verified_destination (w : AutonWorld) (buyer cwKey : Pubkey)
    (cid : Nat) (item : ContentItem) (w' : AutonWorld)
    (hfind : w.creator_account.content.find? (fun it => decide (it.id = cid)) = some item)
    (hne : buyer ≠ w.creator_account.creator_wallet)
    (h : process_payment w buyer cwKey cid = .ok w') :
    cwKey = w.creator_account.creator_wallet ∧
    item.price ≤ w.balances buyer ∧
    w'.balances buyer = w.balances buyer - item.price ∧
    w'.balances w.creator_account.creator_wallet
      = w.balances w.creator_account.creator_wallet + item.price ∧
    (∀ k, k ≠ buyer → k ≠ w.creator_account.creator_wallet → w'.balances k = w.balances k) ∧
    ({ buyer := buyer, content_id := cid } : PaidAccessAccount) ∈ w'.receipts := by
  obtain ⟨hr, hk, hca, hrec, item2, hfind2, hple, hst⟩ :=
    process_payment_ok_spec w buyer cwKey cid w' h
  rw [hfind] at hfind2
  injection hfind2 with hi
  subst hi
  obtain ⟨hle, hmoves, hother⟩ := systemTransfer_ok hst
  have hnek : buyer ≠ cwKey := by
    rw [hk]
    exact hne
  obtain ⟨hsrc, hdst⟩ := hmoves hnek
  subst hk
  refine ⟨rfl, hple, hsrc, hdst, hother, by rw [hrec]; exact List.mem_cons_self _ _⟩

/-- Witnesses for the payment-ledger theorems are built over this sample
world: buyer 0 holds 100 lamports, the creator's wallet is address 1, and
the catalog holds one item with id 1 and price 30. -/
def caEx : CreatorAccount :=
  { creator_wallet := 1, last_content_id := 1,
    content := [{ id := 1, title := ['x'], price := 30, encrypted_cid := [0] }] }

/-- Sample balances: address 0 holds 100 lamports, every other address 7. -/
def balEx : Pubkey → Nat := fun k => if k = 0 then 100 else 7

/-- Sample payment world. -/
def wEx : AutonWorld := { creator_account := caEx, balances := balEx, receipts := [] }

/-- The world after buyer 0 pays for content 1 in `wEx`. -/
def w1Ex : AutonWorld :=
  { creator_account := caEx,
    balances := setBal (setBal balEx 0 (balEx 0 - 30)) 1
      ((setBal balEx 0 (balEx 0 - 30)) 1 + 30),
    receipts := [{ buyer := 0, content_id := 1 }] }

/-- Witness for C4: in the sample world the payment debits the buyer by
30 and credits the stored creator wallet by 30. -/
theorem process_payment_verified_destination_witness :
    w1Ex.balances 0 = wEx.balances 0 - 30 ∧ w1Ex.balances 1 = wEx.balances 1 + 30 := by
  have hs := process_payment_verified_destination wEx 0 1 1
    { id := 1, title := ['x'], price := 30, encrypted_cid := [0] } w1Ex rfl (by decide) rfl
  exact ⟨hs.2.2.1, hs.2.2.2.1⟩

/-- C5: after a first successful `process_payment` for (buyer, contentId)
— which required that no receipt existed, created the receipt and moved
the price — a second call with the same pair fails at receipt creation
(the derived slot is occupied) and the chain state is unchanged from
after the first call, so at most one receipt per pair ever exists. -/
theorem process_payment_double_payment (w : AutonWorld) (buyer cwKey : Pubkey)
    (cid : Nat) (w1 : AutonWorld)
    (h : process_payment w buyer cwKey cid = .ok w1) :
    receiptExists w.receipts buyer cid = false ∧
    w1.receipts = { buyer := buyer, content_id := cid } :: w.receipts ∧
    (∃ item, w.creator_account.content.find? (fun it => decide (it.id = cid)) = some item ∧
      item.price ≤ w.balances buyer ∧
      systemTransfer w.balances buyer cwKey item.price = some w1.balances) ∧
    process_payment w1 buyer cwKey cid = .error .accountInUse ∧
    paymentOutcome w1 buyer cwKey cid = w1 := by
  obtain ⟨hr, hk, hca, hrec, item, hfind, hple, hst⟩ :=
    process_payment_ok_spec w buyer cwKey cid w1 h
  have hex : receiptExists w1.receipts buyer cid = true := by
    rw [hrec]
    unfold receiptExists
    simp
  have hfail : process_payment w1 buyer cwKey cid = .error .accountInUse := by
    unfold process_payment
    rw [if_pos (by simp [hex])]
  refine ⟨hr, hrec, ⟨item, hfind, hple, hst⟩, hfail, ?_⟩
  unfold paymentOutcome
  rw [hfail]

/-- Witness for C5: in the sample world the second payment for the same
(buyer, contentId) pair fails at receipt creation. -/
theorem process_payment_double_payment_witness :
    process_payment w1Ex 0 1 1 = .error .accountInUse := by
  exact (process_payment_double_payment wEx 0 1 1 w1Ex rfl).2.2.2.1

/-- C6: when no catalog item carries the requested id (and the call is
otherwise well-formed: no stray receipt occupies the pair's derived slot
and the correct creator wallet account is supplied), `process_payment`
fails `ContentNotFound` and the chain state is completely unchanged. -/
theorem process_payment_missing_content (w : AutonWorld) (buyer cwKey : Pubkey)
    (cid : Nat)
    (hno : ∀ it ∈ w.creator_account.content, it.id ≠ cid)
    (hrec : receiptExists w.receipts buyer cid = false)
    (hk : cwKey = w.creator_account.creator_wallet) :
    process_payment w buyer cwKey cid = .error .contentNotFound ∧
    paymentOutcome w buyer cwKey cid = w := by
  have hfind : w.creator_account.content.find? (fun it => decide (it.id = cid)) = none := by
    rw [List.find?_eq_none]
    intro it hit
    simpa using hno it hit
  have hfail : process_payment w buyer cwKey cid = .error .contentNotFound := by
    unfold process_payment
    rw [if_neg (by simp [hrec]), if_pos hk, hfind]
  exact ⟨hfail, by unfold paymentOutcome; rw [hfail]⟩

/-- Witness for C6: paying for the absent content id 2 in the sample
world fails `ContentNotFound`. -/
theorem process_payment_missing_content_witness :
    process_payment wEx 0 1 2 = .error .contentNotFound := by
  exact (process_payment_missing_content wEx 0 1 2 (by decide) (by decide) rfl).1

/-- C10: every `process_payment` call, successful or not, leaves the
`CreatorAccount` (wallet, counter and content sequence) unchanged: the
handler only reads the catalog and mutates balances and the receipt
store, and a failed transaction is rolled back entirely. -/
theorem process_payment_frames_creator_account (w : AutonWorld)
    (buyer cwKey : Pubkey) (cid : Nat) :
    (paymentOutcome w buyer cwKey cid).creator_account = w.creator_account := by
  unfold paymentOutcome
  rcases hp : process_payment w buyer cwKey cid with e | w'
  · rfl
  · exact (process_payment_ok_spec w buyer cwKey cid w' hp).2.2.1
